import Mathlib

/-!
Verification of the todo_cli Task State Engine and Store.

This file is a shallow embedding of `crates/todo_core` (the `task_api.rs`
engine and the `storage/json_store.rs` store) into Lean 4, together with
theorems settling the frozen claims about them.

Modelling conventions:

* `time::OffsetDateTime` is modelled by `ODT`: an absolute instant
  (seconds since the epoch, as `Int`) plus a UTC offset in seconds.
  `to_offset` keeps the instant and changes the offset; `PartialOrd` on
  `OffsetDateTime` compares instants; `.date()` is the calendar day of
  the offset-adjusted wall-clock time, modelled as the floor-division
  day number `(instant + offset) / 86400` (order-faithful).
* The RFC3339 parser and formatter of the `time` crate are external to
  the engine; they are passed to each embedded function as explicit
  parameters `P : String → Option ODT` (parse, `None` = parse error)
  and `F : ODT → String` (re-serialization).  The engine only ever uses
  their results, so every theorem is stated for an arbitrary `P`/`F`;
  witnesses instantiate them with the concrete finite fragments
  `demoParse` / `demoFmt` defined below.
* The filesystem at one store location is `Option Content`: `none` when
  no document exists, `some .garbage` for content that is not a valid
  JSON document of the stored shape, `some (.doc d)` for a structurally
  well-typed document `d`.
* Rust's `Result<T, AppError>` is `Except AppError T`; `str::trim` is
  `strTrim`, an executable whitespace trim over the character list.
-/

deriving instance DecidableEq for Except

namespace Todo

/-- `TaskStatus` from `model/task.rs` (serde snake_case: "pending"/"completed"). -/
inductive TaskStatus where
  | Pending
  | Completed
deriving DecidableEq, Repr

/-- `CompletionEntry` from `model/task.rs`. -/
structure CompletionEntry where
  message : String
  completed_at : String
deriving DecidableEq, Repr

/-- The `Task` record as used by `task_api.rs`, `json_store.rs` and the
crate's own tests: note that it carries an `urgent` boolean.  (The
`Task` struct literally written in `model/task.rs` omits `urgent`; that
discrepancy is the subject of claim C10 and is embedded separately as
`ModelTask` below.) -/
structure Task where
  id : String
  title : String
  status : TaskStatus
  created_at : String
  scheduled_at : Option String
  completed_at : Option String
  completion_history : List CompletionEntry
  urgent : Bool
deriving DecidableEq, Repr

/-- `TaskState` from `storage/json_store.rs`. -/
structure TaskState where
  tasks : List Task
  focused_task_id : Option String
deriving DecidableEq, Repr

/-- `AppError` from `error.rs`. -/
inductive AppError where
  | InvalidInput (msg : String)
  | InvalidData (msg : String)
  | IoError (msg : String)
deriving DecidableEq, Repr

/-- `ListResult` from `task_api.rs`. -/
structure ListResult where
  tasks : List Task
  focused_task_id : Option String
deriving DecidableEq, Repr

/-- `NotificationFailure` from `task_api.rs`. -/
structure NotificationFailure where
  task_id : String
  error : AppError
deriving DecidableEq, Repr

/-- `NotificationOutcome` from `task_api.rs`. -/
structure NotificationOutcome where
  tasks : List Task
  failures : List NotificationFailure
deriving DecidableEq, Repr

/-- Model of `time::OffsetDateTime`: an absolute instant in seconds since
the epoch together with a UTC offset in seconds. -/
structure ODT where
  instant : Int
  offset : Int
deriving DecidableEq, Repr

/-- `OffsetDateTime::to_offset`: same instant, new offset. -/
def ODT.toOffset (d : ODT) (o : Int) : ODT :=
  { instant := d.instant, offset := o }

/-- `PartialOrd` on `OffsetDateTime` compares the absolute instants. -/
def ODT.lt (a b : ODT) : Bool :=
  decide (a.instant < b.instant)

/-- `OffsetDateTime::date()`: the calendar day of the offset-adjusted
wall-clock time, as a day number (floor division by 86400 seconds). -/
def ODT.date (d : ODT) : Int :=
  Int.fdiv (d.instant + d.offset) 86400

/-! ## Store (`storage/json_store.rs`) -/

/-- `SCHEMA_VERSION` from `json_store.rs`. -/
def SCHEMA_VERSION : Nat := 5

/-- The serde-level `StoredTasks` envelope from `json_store.rs`
(`schema_version`, `tasks`, `focused_task_id` with `#[serde(default)]`). -/
structure StoredTasks where
  schema_version : Nat
  tasks : List Task
  focused_task_id : Option String
deriving DecidableEq, Repr

/-- Content of the store location: `garbage` stands for any bytes that do
not deserialize into `StoredTasks`, `doc` for a well-typed document. -/
inductive Content where
  | garbage
  | doc (d : StoredTasks)
deriving DecidableEq, Repr

/-- `load_state` from `json_store.rs`: missing file → empty state; parse
failure → `InvalidData`; `schema_version` outside `1..=SCHEMA_VERSION` →
`InvalidData`; a `focused_task_id` naming no task → `InvalidData`. -/
def load_state : Option Content → Except AppError TaskState
  | none => .ok { tasks := [], focused_task_id := none }
  | some .garbage => .error (.InvalidData "malformed document")
  | some (.doc d) =>
    if ¬(1 ≤ d.schema_version ∧ d.schema_version ≤ SCHEMA_VERSION) then
      .error (.InvalidData "schema_version mismatch")
    else
      match d.focused_task_id with
      | some f =>
        if d.tasks.any (fun t => t.id = f) then
          .ok { tasks := d.tasks, focused_task_id := some f }
        else
          .error (.InvalidData "focused_task_id not found")
      | none => .ok { tasks := d.tasks, focused_task_id := none }

/-- `save_state` from `json_store.rs`, success path: writes the whole
state as a document carrying the current `SCHEMA_VERSION`. -/
def save_state (s : TaskState) : Option Content :=
  some (.doc { schema_version := SCHEMA_VERSION
               tasks := s.tasks
               focused_task_id := s.focused_task_id })

/-- The focus invariant: if `focused_task_id` is present it names an
existing task (spec §3; checked by `load_state`). -/
def focus_ok (s : TaskState) : Bool :=
  match s.focused_task_id with
  | none => true
  | some f => s.tasks.any (fun t => t.id = f)

/-- Model of Rust's `str::trim`: strip whitespace from both ends of the
string.  (Defined over the character list so that the kernel can evaluate
it on literals; core's `String.trim` is byte-position based and does not
reduce.) -/
def strTrim (s : String) : String :=
  String.mk (((s.data.dropWhile Char.isWhitespace).reverse.dropWhile
    Char.isWhitespace).reverse)

/-! ## Task State Engine (`task_api.rs`) -/

/-- `ListMode` from `task_api.rs`. -/
inductive ListMode where
  | Today
  | Backlog
deriving DecidableEq, Repr

/-- `filter_tasks` from `task_api.rs` (lines 250-284): an unscheduled task
is kept only in `Backlog` mode; a scheduled task is parsed (`InvalidData`
on failure, aborting the whole listing), its local calendar date is
compared with `today` (`≤` for Today, `>` for Backlog). -/
def filter_tasks (P : String → Option ODT) (tasks : List Task) (today : Int)
    (local_offset : Int) (mode : ListMode) : Except AppError (List Task) :=
  match tasks with
  | [] => .ok []
  | task :: rest =>
    match task.scheduled_at with
    | none =>
      match filter_tasks P rest today local_offset mode with
      | .error e => .error e
      | .ok f =>
        match mode with
        | .Backlog => .ok (task :: f)
        | .Today => .ok f
    | some value =>
      match P value with
      | none => .error (.InvalidData "scheduled_at must be RFC3339")
      | some scheduled =>
        let scheduled_date := (scheduled.toOffset local_offset).date
        let matched : Bool :=
          match mode with
          | .Today => decide (scheduled_date ≤ today)
          | .Backlog => decide (scheduled_date > today)
        match filter_tasks P rest today local_offset mode with
        | .error e => .error e
        | .ok f => .ok (if matched then task :: f else f)

/-- The first task with the given id is extracted, the rest kept in
order: this is `tasks.iter().position(..)` followed by `tasks.remove(index)`
(used by `delete_task_with_path` and by the focus promotion of
`list_with_focus`). -/
def remove_first (tasks : List Task) (tid : String) : Option (List Task × Task) :=
  match tasks with
  | [] => none
  | t :: rest =>
    if t.id = tid then some (rest, t)
    else (remove_first rest tid).map (fun p => (t :: p.1, p.2))

/-- The focus-promotion step of `list_with_focus`: if a task with the
focused id is in the list, remove it and reinsert it at the front. -/
def promote_focused (f : String) (tasks : List Task) : List Task :=
  match remove_first tasks f with
  | none => tasks
  | some (rest, t) => t :: rest

/-- `list_with_focus` from `task_api.rs`: `today` is the local calendar
date of "now", the filtered tasks are computed by `filter_tasks`, and the
focused task (if present in the result) is promoted to the front. -/
def list_with_focus (P : String → Option ODT) (s : TaskState) (now_utc : ODT)
    (local_offset : Int) (mode : ListMode) : Except AppError ListResult :=
  let today := (now_utc.toOffset local_offset).date
  match filter_tasks P s.tasks today local_offset mode with
  | .error e => .error e
  | .ok tasks =>
    .ok { tasks :=
            match s.focused_task_id with
            | none => tasks
            | some f => promote_focused f tasks
          focused_task_id := s.focused_task_id }

/-- `is_overdue` from `task_api.rs` (lines 528-536): parse the stored
schedule (`InvalidData` on failure) and compare the offset-adjusted
instant strictly against `now_local`. -/
def is_overdue (P : String → Option ODT) (scheduled_at : String)
    (local_offset : Int) (now_local : ODT) : Except AppError Bool :=
  match P scheduled_at with
  | none => .error (.InvalidData "scheduled_at must be RFC3339")
  | some scheduled => .ok (ODT.lt (scheduled.toOffset local_offset) now_local)

/-- `task_overdue` from `task_api.rs` (lines 538-546): a task with no
`scheduled_at` is never overdue; otherwise defer to `is_overdue` with
`now_local = now_utc.to_offset(local_offset)`. -/
def task_overdue (P : String → Option ODT) (task : Task)
    (local_offset : Int) (now_utc : ODT) : Except AppError Bool :=
  match task.scheduled_at with
  | none => .ok false
  | some value => is_overdue P value local_offset (now_utc.toOffset local_offset)

/-- The common loop shape of `edit/complete/set_urgent/update_schedule`:
walk the task list, apply `f` to the first task whose id matches
(propagating its validation errors), leave the rest untouched, and report
the updated task (`none` when no task matched). -/
def modify_first (tid : String) (f : Task → Except AppError Task) :
    List Task → Except AppError (List Task × Option Task)
  | [] => .ok ([], none)
  | t :: rest =>
    if t.id = tid then
      match f t with
      | .error e => .error e
      | .ok t' => .ok (t' :: rest, some t')
    else
      match modify_first tid f rest with
      | .error e => .error e
      | .ok (l, u) => .ok (t :: l, u)

/-- `add_task_with_path` from `task_api.rs`, in-memory step: reject a
blank title, append a fresh Pending task (its generated id and
`created_at` timestamp are passed in, as they come from the clock). -/
def add_task (s : TaskState) (title : String) (urgent : Bool)
    (id created_at : String) : Except AppError (TaskState × Task) :=
  let trimmed := (strTrim title)
  if trimmed.isEmpty then .error (.InvalidInput "title is required")
  else
    let task : Task :=
      { id := id, title := trimmed, status := .Pending, created_at := created_at
        scheduled_at := none, completed_at := none, completion_history := []
        urgent := urgent }
    .ok ({ tasks := s.tasks ++ [task], focused_task_id := s.focused_task_id }, task)

/-- `edit_task_with_path` from `task_api.rs`: blank id / blank title
rejected, first matching task gets the trimmed new title, focus is
cleared when it pointed at the edited id. -/
def edit_task (s : TaskState) (id new_title : String) :
    Except AppError (TaskState × Task) :=
  let trimmed_id := (strTrim id)
  if trimmed_id.isEmpty then .error (.InvalidInput "id is required")
  else
    let trimmed_title := strTrim new_title
    if trimmed_title.isEmpty then .error (.InvalidInput "title is required")
    else
      match modify_first trimmed_id (fun t => .ok { t with title := trimmed_title }) s.tasks with
      | .error e => .error e
      | .ok (_, none) => .error (.InvalidInput "task not found")
      | .ok (tasks, some updated) =>
        let focused := if s.focused_task_id = some trimmed_id then none
                       else s.focused_task_id
        .ok ({ tasks := tasks, focused_task_id := focused }, updated)

/-- `delete_task_with_path` from `task_api.rs` (lines 317-337): blank id
rejected, first matching task removed, focus cleared when it pointed at
the removed id. -/
def delete_task (s : TaskState) (id : String) :
    Except AppError (TaskState × Task) :=
  let trimmed_id := (strTrim id)
  if trimmed_id.isEmpty then .error (.InvalidInput "id is required")
  else
    match remove_first s.tasks trimmed_id with
    | none => .error (.InvalidInput "task not found")
    | some (rest, removed) =>
      let focused := if s.focused_task_id = some trimmed_id then none
                     else s.focused_task_id
      .ok ({ tasks := rest, focused_task_id := focused }, removed)

/-- The per-task step of `complete_task_with_path`: an already-Completed
task is rejected, a provided-but-blank message is rejected, otherwise the
task becomes Completed at `completed_at` and a history entry is appended
exactly when a message was supplied. -/
def complete_step (message : Option String) (completed_at : String)
    (t : Task) : Except AppError Task :=
  if t.status = .Completed then .error (.InvalidInput "task already completed")
  else
    match message with
    | some v =>
      if (strTrim v).isEmpty then .error (.InvalidInput "message is required")
      else
        .ok { t with
                status := .Completed
                completed_at := some completed_at
                completion_history :=
                  t.completion_history ++ [{ message := (strTrim v), completed_at := completed_at }] }
    | none =>
      .ok { t with status := .Completed, completed_at := some completed_at }

/-- `complete_task_with_path` from `task_api.rs` (lines 339-391),
in-memory step (`completed_at` is the formatted "now"): blank id
rejected, first matching task completed via `complete_step`, focus
cleared when it pointed at the completed id. -/
def complete_task (s : TaskState) (id : String) (message : Option String)
    (completed_at : String) : Except AppError (TaskState × Task) :=
  let trimmed_id := (strTrim id)
  if trimmed_id.isEmpty then .error (.InvalidInput "id is required")
  else
    match modify_first trimmed_id (complete_step message completed_at) s.tasks with
    | .error e => .error e
    | .ok (_, none) => .error (.InvalidInput "task not found")
    | .ok (tasks, some updated) =>
      let focused := if s.focused_task_id = some trimmed_id then none
                     else s.focused_task_id
      .ok ({ tasks := tasks, focused_task_id := focused }, updated)

/-- `complete_focused_task_with_path` from `task_api.rs`: fails when no
focus is set, validates the message up front, completes the focused task
and always clears the focus on success. -/
def complete_focused_task (s : TaskState) (message : Option String)
    (completed_at : String) : Except AppError (TaskState × Task) :=
  match s.focused_task_id with
  | none => .error (.InvalidInput "no focused task")
  | some focused_id =>
    match message with
    | some v =>
      if (strTrim v).isEmpty then .error (.InvalidInput "message is required")
      else
        match modify_first focused_id (complete_step (some v) completed_at) s.tasks with
        | .error e => .error e
        | .ok (_, none) => .error (.InvalidInput "task not found")
        | .ok (tasks, some updated) =>
          .ok ({ tasks := tasks, focused_task_id := none }, updated)
    | none =>
      match modify_first focused_id (complete_step none completed_at) s.tasks with
      | .error e => .error e
      | .ok (_, none) => .error (.InvalidInput "task not found")
      | .ok (tasks, some updated) =>
        .ok ({ tasks := tasks, focused_task_id := none }, updated)

/-- `set_focus_with_path` from `task_api.rs`: blank id rejected, first
matching task found, `focused_task_id` set to that task's id. -/
def set_focus (s : TaskState) (id : String) :
    Except AppError (TaskState × Task) :=
  let trimmed_id := (strTrim id)
  if trimmed_id.isEmpty then .error (.InvalidInput "id is required")
  else
    match s.tasks.find? (fun t => t.id = trimmed_id) with
    | none => .error (.InvalidInput "task not found")
    | some task =>
      .ok ({ tasks := s.tasks, focused_task_id := some task.id }, task)

/-- `set_task_urgent_with_path` from `task_api.rs`: blank id rejected,
the first matching task's `urgent` flag set to exactly the given value. -/
def set_task_urgent (s : TaskState) (id : String) (urgent : Bool) :
    Except AppError (TaskState × Task) :=
  let trimmed_id := (strTrim id)
  if trimmed_id.isEmpty then .error (.InvalidInput "id is required")
  else
    match modify_first trimmed_id (fun t => .ok { t with urgent := urgent }) s.tasks with
    | .error e => .error e
    | .ok (_, none) => .error (.InvalidInput "task not found")
    | .ok (tasks, some updated) =>
      .ok ({ tasks := tasks, focused_task_id := s.focused_task_id }, updated)

/-- The per-task step of `update_schedule_with_path` (lines 474-526):
with `require_existing` an unscheduled task is rejected; with
`require_overdue` the current schedule is parsed and must be strictly
before now in the local offset; then the new normalized `scheduled_at`
replaces the old one. -/
def update_schedule_step (P : String → Option ODT) (scheduled_at : String)
    (require_existing require_overdue : Bool) (local_offset : Int)
    (now_local : ODT) (t : Task) : Except AppError Task :=
  if require_existing ∧ t.scheduled_at = none then
    .error (.InvalidInput "task is not scheduled")
  else if require_overdue then
    match t.scheduled_at with
    | none => .error (.InvalidInput "task is not scheduled")
    | some current =>
      match is_overdue P current local_offset now_local with
      | .error e => .error e
      | .ok overdue =>
        if ¬overdue then .error (.InvalidInput "task is not overdue")
        else .ok { t with scheduled_at := some scheduled_at }
  else .ok { t with scheduled_at := some scheduled_at }

/-- `update_schedule_with_path` from `task_api.rs` (lines 474-526),
in-memory step: blank id / blank datetime rejected, the datetime must
parse as RFC3339 (`InvalidInput`), the normalized re-serialization
`F parsed` is what gets stored; then the first matching task is updated
via `update_schedule_step` with `now_local = now_utc.to_offset(local_offset)`. -/
def update_schedule (P : String → Option ODT) (F : ODT → String)
    (s : TaskState) (id datetime : String)
    (require_existing require_overdue : Bool) (local_offset : Int)
    (now_utc : ODT) : Except AppError (TaskState × Task) :=
  let trimmed_id := (strTrim id)
  if trimmed_id.isEmpty then .error (.InvalidInput "id is required")
  else
    let trimmed_datetime := (strTrim datetime)
    if trimmed_datetime.isEmpty then .error (.InvalidInput "datetime is required")
    else
      match P trimmed_datetime with
      | none => .error (.InvalidInput "datetime must be RFC3339")
      | some parsed =>
        let scheduled_at := F parsed
        let now_local := now_utc.toOffset local_offset
        match modify_first trimmed_id
            (update_schedule_step P scheduled_at require_existing require_overdue
              local_offset now_local) s.tasks with
        | .error e => .error e
        | .ok (_, none) => .error (.InvalidInput "task not found")
        | .ok (tasks, some updated) =>
          .ok ({ tasks := tasks, focused_task_id := s.focused_task_id }, updated)

/-- `schedule_task_with_path`: `update_schedule` with both extra
preconditions off. -/
def schedule_task (P : String → Option ODT) (F : ODT → String)
    (s : TaskState) (id datetime : String) (local_offset : Int)
    (now_utc : ODT) : Except AppError (TaskState × Task) :=
  update_schedule P F s id datetime false false local_offset now_utc

/-- `reschedule_task_with_path`: `update_schedule` with both extra
preconditions on. -/
def reschedule_task (P : String → Option ODT) (F : ODT → String)
    (s : TaskState) (id datetime : String) (local_offset : Int)
    (now_utc : ODT) : Except AppError (TaskState × Task) :=
  update_schedule P F s id datetime true true local_offset now_utc

/-- `activation_argument` from `notify/mod.rs`. -/
def activation_argument (task_id : String) : String :=
  "show:" ++ task_id

/-- The loop of `notify_overdue_or_urgent_with_path` (lines 176-208):
non-Pending tasks are skipped; for Pending tasks `task_overdue` is
consulted (its `InvalidData` error aborts the pass); tasks neither
overdue nor urgent are skipped; for each selected task the notifier
`N` is invoked with the activation argument, a success is recorded in
`tasks` and a failure per-task in `failures` without stopping the loop. -/
def notify_loop (P : String → Option ODT) (N : Task → String → Except AppError Unit)
    (local_offset : Int) (now_utc : ODT) :
    List Task → Except AppError NotificationOutcome
  | [] => .ok { tasks := [], failures := [] }
  | task :: rest =>
    if task.status ≠ .Pending then
      notify_loop P N local_offset now_utc rest
    else
      match task_overdue P task local_offset now_utc with
      | .error e => .error e
      | .ok overdue =>
        if ¬overdue ∧ ¬task.urgent then
          notify_loop P N local_offset now_utc rest
        else
          let action := activation_argument task.id
          match N task action with
          | .ok _ =>
            match notify_loop P N local_offset now_utc rest with
            | .error e => .error e
            | .ok o => .ok { o with tasks := task :: o.tasks }
          | .error err =>
            match notify_loop P N local_offset now_utc rest with
            | .error e => .error e
            | .ok o => .ok { o with failures := { task_id := task.id, error := err } :: o.failures }

/-- `notify_overdue_or_urgent_with_path`, in-memory step over a loaded
state. -/
def notify_overdue_or_urgent (P : String → Option ODT)
    (N : Task → String → Except AppError Unit) (local_offset : Int)
    (now_utc : ODT) (s : TaskState) : Except AppError NotificationOutcome :=
  notify_loop P N local_offset now_utc s.tasks

/-- `complete_task_with_path` including the store round trip: load from
the location, run the in-memory completion, and only on success replace
the document (a validation failure performs no write). -/
def complete_task_store (st : Option Content) (id : String)
    (message : Option String) (completed_at : String) :
    Option Content × Except AppError Task :=
  match load_state st with
  | .error e => (st, .error e)
  | .ok s =>
    match complete_task s id message completed_at with
    | .error e => (st, .error e)
    | .ok (s', t) => (save_state s', .ok t)

/-! ## Specification-side predicates -/

/-- The classification decision `filter_tasks` makes for one task:
an unscheduled task matches only Backlog; a scheduled task whose
schedule parses matches Today when its local calendar date is `≤ today`
and Backlog when it is `> today`; an unparseable schedule matches
nothing (the listing errors instead). -/
def scheduled_matches (P : String → Option ODT) (local_offset today : Int)
    (mode : ListMode) (t : Task) : Bool :=
  match t.scheduled_at with
  | none =>
    match mode with
    | .Today => false
    | .Backlog => true
  | some s =>
    match P s with
    | none => false
    | some d =>
      match mode with
      | .Today => decide ((d.toOffset local_offset).date ≤ today)
      | .Backlog => decide ((d.toOffset local_offset).date > today)

/-- Every present `scheduled_at` in the list parses under `P`. -/
def parses_ok (P : String → Option ODT) (tasks : List Task) : Bool :=
  tasks.all (fun t =>
    match t.scheduled_at with
    | none => true
    | some s => (P s).isSome)

/-- The overdue decision as a boolean: an unscheduled or unparseable
schedule is not overdue, otherwise the offset-adjusted instant is
strictly before now. -/
def overdue_b (P : String → Option ODT) (local_offset : Int) (now_utc : ODT)
    (t : Task) : Bool :=
  match t.scheduled_at with
  | none => false
  | some s =>
    match P s with
    | none => false
    | some d => ODT.lt (d.toOffset local_offset) (now_utc.toOffset local_offset)

/-- A task qualifies for a notification pass when it is Pending and
(overdue or urgent). -/
def qualifies (P : String → Option ODT) (local_offset : Int) (now_utc : ODT)
    (t : Task) : Bool :=
  decide (t.status = .Pending) && (overdue_b P local_offset now_utc t || t.urgent)

/-! ## The `Task` struct literally written in `model/task.rs` (claim C10) -/

/-- `Task` exactly as the struct in `model/task.rs` lines 9-21 declares
it: id, title, status, created_at, and defaulted scheduled_at,
completed_at, completion_history — and no `urgent` field at all. -/
structure ModelTask where
  id : String
  title : String
  status : TaskStatus
  created_at : String
  scheduled_at : Option String
  completed_at : Option String
  completion_history : List CompletionEntry
deriving DecidableEq, Repr

/-- A JSON scalar, as far as the stored task objects need: a string or
a boolean. -/
inductive JsonVal where
  | str (v : String)
  | boolean (v : Bool)
deriving DecidableEq, Repr

/-- A task object of the stored document at the field level: each field
is present (with a raw value) or absent.  `urgent` is carried so that a
document may well contain it; whether the deserializer looks at it is
decided by the struct definition. -/
structure RawTaskObj where
  id : Option JsonVal
  title : Option JsonVal
  status : Option JsonVal
  created_at : Option JsonVal
  scheduled_at : Option JsonVal
  completed_at : Option JsonVal
  completion_history : Option (List CompletionEntry)
  urgent : Option JsonVal
deriving DecidableEq, Repr

/-- serde decode of `TaskStatus` (`rename_all = "snake_case"`). -/
def decodeStatus : JsonVal → Option TaskStatus
  | .str "pending" => some .Pending
  | .str "completed" => some .Completed
  | _ => none

/-- serde decode of a required `String` field. -/
def decodeReqStr : Option JsonVal → Option String
  | some (.str v) => some v
  | _ => none

/-- serde decode of a `#[serde(default)] Option<String>` field. -/
def decodeOptStr : Option JsonVal → Option (Option String)
  | none => some none
  | some (.str v) => some (some v)
  | some (.boolean _) => none

/-- serde deserialization of one task object per the `Task` struct as
written in `model/task.rs`: the four required fields must be present
with the right types, the three `#[serde(default)]` fields default when
absent, and — because the struct declares no `urgent` field and serde
ignores unknown fields — the `urgent` entry of the object is never
examined, whatever its value. -/
def decodeModelTask (o : RawTaskObj) : Option ModelTask :=
  match decodeReqStr o.id, decodeReqStr o.title,
        o.status.bind decodeStatus, decodeReqStr o.created_at,
        decodeOptStr o.scheduled_at, decodeOptStr o.completed_at with
  | some id, some title, some status, some created_at, some sch, some cmp =>
    some { id := id, title := title, status := status, created_at := created_at
           scheduled_at := sch, completed_at := cmp
           completion_history := o.completion_history.getD [] }
  | _, _, _, _, _, _ => none

/-! ## Concrete instances for witnesses and counterexamples

`demoParse` / `demoFmt` are a finite fragment of the RFC3339
parser/formatter pair, defined only on the handful of timestamps the
closed theorems below mention; general theorems are stated for an
arbitrary parser and instantiated with these. -/

/-- A finite fragment of the RFC3339 parser (UTC timestamps around the
epoch), used to instantiate the general theorems at concrete inputs. -/
def demoParse (s : String) : Option ODT :=
  if s = "1969-12-31T00:00:00Z" then some { instant := -86400, offset := 0 }
  else if s = "1970-01-01T00:00:00Z" then some { instant := 0, offset := 0 }
  else if s = "1970-01-01T12:00:00Z" then some { instant := 43200, offset := 0 }
  else if s = "1970-01-02T00:00:00Z" then some { instant := 86400, offset := 0 }
  else none

/-- The matching fragment of the RFC3339 formatter. -/
def demoFmt (d : ODT) : String :=
  if d = { instant := -86400, offset := 0 : ODT } then "1969-12-31T00:00:00Z"
  else if d = { instant := 0, offset := 0 : ODT } then "1970-01-01T00:00:00Z"
  else if d = { instant := 43200, offset := 0 : ODT } then "1970-01-01T12:00:00Z"
  else if d = { instant := 86400, offset := 0 : ODT } then "1970-01-02T00:00:00Z"
  else ""

/-- A task scheduled for noon of 1970-01-01 (later today relative to
`nowMidnight`). -/
def taskNoon : Task :=
  { id := "task-1", title := "noon", status := .Pending
    created_at := "1970-01-01T00:00:00Z"
    scheduled_at := some "1970-01-01T12:00:00Z"
    completed_at := none, completion_history := [], urgent := false }

/-- A task with an overdue schedule (yesterday relative to `nowMidnight`). -/
def taskOverdueDemo : Task :=
  { id := "task-2", title := "overdue", status := .Pending
    created_at := "1970-01-01T00:00:00Z"
    scheduled_at := some "1969-12-31T00:00:00Z"
    completed_at := none, completion_history := [], urgent := false }

/-- An unscheduled task. -/
def taskUnscheduled : Task :=
  { id := "task-3", title := "unscheduled", status := .Pending
    created_at := "1970-01-01T00:00:00Z"
    scheduled_at := none
    completed_at := none, completion_history := [], urgent := false }

/-- A completed task. -/
def taskDone : Task :=
  { id := "task-4", title := "done", status := .Completed
    created_at := "1970-01-01T00:00:00Z"
    scheduled_at := none
    completed_at := some "1970-01-01T00:00:00Z"
    completion_history := [], urgent := true }

/-- "now": midnight 1970-01-01 UTC. -/
def nowMidnight : ODT := { instant := 0, offset := 0 }

/-- Whether the notifier delivers successfully for a task (with the
activation argument the engine passes). -/
def delivered (N : Task → String → Except AppError Unit) (t : Task) : Bool :=
  match N t (activation_argument t.id) with
  | .ok _ => true
  | .error _ => false

/-- The per-task failure the engine records when delivery fails. -/
def failure_of (N : Task → String → Except AppError Unit) (t : Task) :
    Option NotificationFailure :=
  match N t (activation_argument t.id) with
  | .ok _ => none
  | .error e => some { task_id := t.id, error := e }

/-- Every Pending task's present schedule parses under `P` (the
precondition under which a notification pass cannot abort). -/
def pending_parses_ok (P : String → Option ODT) (tasks : List Task) : Bool :=
  tasks.all (fun t =>
    match t.status with
    | .Pending =>
      match t.scheduled_at with
      | none => true
      | some v => (P v).isSome
    | .Completed => true)

/-- A pending urgent task with no schedule. -/
def taskUrgent : Task :=
  { id := "task-5", title := "urgent", status := .Pending
    created_at := "1970-01-01T00:00:00Z"
    scheduled_at := none
    completed_at := none, completion_history := [], urgent := true }

/-- A notifier that fails delivery for task-2 and succeeds otherwise. -/
def demoNotifier (t : Task) (_action : String) : Except AppError Unit :=
  if t.id = "task-2" then .error (.IoError "no display") else .ok ()

/-! ## Helper lemmas -/

theorem parses_ok_cons (P : String → Option ODT) (t : Task) (rest : List Task) :
    parses_ok P (t :: rest) =
      ((match t.scheduled_at with
        | none => true
        | some s => (P s).isSome) && parses_ok P rest) := rfl

/-- When every schedule parses, `filter_tasks` succeeds and is the
plain `List.filter` of the per-task classification. -/
theorem filter_tasks_of_parses (P : String → Option ODT) (today local_offset : Int)
    (mode : ListMode) :
    ∀ tasks : List Task, parses_ok P tasks = true →
      filter_tasks P tasks today local_offset mode =
        .ok (tasks.filter (scheduled_matches P local_offset today mode))
  | [], _ => rfl
  | t :: rest, h => by
    rw [parses_ok_cons, Bool.and_eq_true] at h
    have hrec := filter_tasks_of_parses P today local_offset mode rest h.2
    cases hsch : t.scheduled_at with
    | none =>
      cases mode with
      | Today => simp [filter_tasks, hsch, hrec, List.filter_cons, scheduled_matches]
      | Backlog => simp [filter_tasks, hsch, hrec, List.filter_cons, scheduled_matches]
    | some s =>
      have hps : (P s).isSome = true := by
        have := h.1; rw [hsch] at this; exact this
      obtain ⟨d, hd⟩ := Option.isSome_iff_exists.mp hps
      cases mode with
      | Today =>
        by_cases hle : (d.toOffset local_offset).date ≤ today
        · simp [filter_tasks, hsch, hd, hrec, List.filter_cons, scheduled_matches, hle]
        · simp [filter_tasks, hsch, hd, hrec, List.filter_cons, scheduled_matches, hle]
      | Backlog =>
        by_cases hgt : (d.toOffset local_offset).date > today
        · simp [filter_tasks, hsch, hd, hrec, List.filter_cons, scheduled_matches, hgt]
        · simp [filter_tasks, hsch, hd, hrec, List.filter_cons, scheduled_matches, hgt]

/-- A successful `filter_tasks` run means every schedule parsed. -/
theorem parses_ok_of_filter_tasks_ok (P : String → Option ODT)
    (today local_offset : Int) (mode : ListMode) :
    ∀ tasks l, filter_tasks P tasks today local_offset mode = .ok l →
      parses_ok P tasks = true
  | [], _, _ => rfl
  | t :: rest, l, h => by
    rw [parses_ok_cons, Bool.and_eq_true]
    cases hsch : t.scheduled_at with
    | none =>
      refine ⟨rfl, ?_⟩
      cases hrec : filter_tasks P rest today local_offset mode with
      | error e =>
        exfalso
        cases mode <;> simp [filter_tasks, hsch, hrec] at h
      | ok f => exact parses_ok_of_filter_tasks_ok P today local_offset mode rest f hrec
    | some s =>
      cases hd : P s with
      | none =>
        exfalso
        cases mode <;> simp [filter_tasks, hsch, hd] at h
      | some d =>
        refine ⟨by simp [hd], ?_⟩
        cases hrec : filter_tasks P rest today local_offset mode with
        | error e =>
          exfalso
          cases mode <;> simp [filter_tasks, hsch, hd, hrec] at h
        | ok f => exact parses_ok_of_filter_tasks_ok P today local_offset mode rest f hrec

/-- Full characterization of a successful `filter_tasks` run. -/
theorem filter_tasks_ok_iff (P : String → Option ODT) (today local_offset : Int)
    (mode : ListMode) (tasks l : List Task) :
    filter_tasks P tasks today local_offset mode = .ok l ↔
      (parses_ok P tasks = true ∧
       l = tasks.filter (scheduled_matches P local_offset today mode)) := by
  constructor
  · intro h
    have hp := parses_ok_of_filter_tasks_ok P today local_offset mode tasks l h
    have := filter_tasks_of_parses P today local_offset mode tasks hp
    rw [this] at h
    exact ⟨hp, (Except.ok.injEq _ _ ▸ h.symm : _)⟩
  · rintro ⟨hp, rfl⟩
    exact filter_tasks_of_parses P today local_offset mode tasks hp

/-- `remove_first` extracts a task with the requested id and the result
is a permutation of the input with that task at the front. -/
theorem remove_first_spec (tid : String) :
    ∀ (tasks rest : List Task) (t : Task),
      remove_first tasks tid = some (rest, t) →
      t.id = tid ∧ tasks.Perm (t :: rest)
  | [], _, _, h => by simp [remove_first] at h
  | a :: as, rest, t, h => by
    by_cases ha : a.id = tid
    · simp [remove_first, ha] at h
      obtain ⟨h1, h2⟩ := h
      subst h1; subst h2
      exact ⟨ha, List.Perm.refl _⟩
    · simp [remove_first, ha] at h
      obtain ⟨l, hl, hcons⟩ := h
      obtain ⟨hid, hperm⟩ := remove_first_spec tid as l t hl
      subst hcons
      exact ⟨hid, (hperm.cons a).trans (List.Perm.swap t a l)⟩

/-- Focus promotion permutes the list, so membership is unchanged. -/
theorem mem_promote_focused (f : String) (tasks : List Task) (t : Task) :
    t ∈ promote_focused f tasks ↔ t ∈ tasks := by
  unfold promote_focused
  cases h : remove_first tasks f with
  | none => exact Iff.rfl
  | some p =>
    obtain ⟨rest, r⟩ := p
    have := (remove_first_spec f tasks rest r h).2
    exact (this.mem_iff).symm

/-- `remove_first` returns `none` exactly when no task has the id. -/
theorem remove_first_eq_none_iff (tid : String) :
    ∀ tasks : List Task,
      remove_first tasks tid = none ↔ ∀ t ∈ tasks, t.id ≠ tid
  | [] => by simp [remove_first]
  | a :: as => by
    by_cases ha : a.id = tid
    · simp [remove_first, ha]
    · simp [remove_first, ha, remove_first_eq_none_iff tid as]

/-- If `f` preserves task ids, the `modify_first` loop preserves, for
every id, whether some task carries it. -/
theorem modify_first_any_id (tid : String) (f : Task → Except AppError Task)
    (hf : ∀ u u', f u = .ok u' → u'.id = u.id) :
    ∀ (ts ts' : List Task) (u : Option Task),
      modify_first tid f ts = .ok (ts', u) →
      ∀ g, ts'.any (fun x => x.id = g) = ts.any (fun x => x.id = g)
  | [], ts', u, h => by
    simp [modify_first] at h
    simp [h.1.symm]
  | a :: as, ts', u, h => by
    intro g
    by_cases ha : a.id = tid
    · simp only [modify_first, ha, if_pos] at h
      cases hfa : f a with
      | error e => rw [hfa] at h; exact absurd h (by simp)
      | ok a' =>
        rw [hfa] at h
        simp at h
        obtain ⟨h1, _⟩ := h
        subst h1
        simp [List.any_cons, hf a a' hfa]
    · simp only [modify_first, ha, if_neg, not_false_iff] at h
      cases hrec : modify_first tid f as with
      | error e => rw [hrec] at h; exact absurd h (by simp)
      | ok p =>
        obtain ⟨l, v⟩ := p
        rw [hrec] at h
        simp at h
        obtain ⟨h1, _⟩ := h
        subst h1
        simp [List.any_cons, modify_first_any_id tid f hf as l v hrec g]

/-- Behavior of `modify_first` at the first task matching the id (as
found by `find?`): `f`'s error propagates, `f`'s success becomes the
reported update. -/
theorem modify_first_find (tid : String) (f : Task → Except AppError Task) :
    ∀ (ts : List Task) (t : Task),
      ts.find? (fun u => u.id = tid) = some t →
      ((∀ e, f t = .error e → modify_first tid f ts = .error e) ∧
       (∀ t', f t = .ok t' → ∃ l, modify_first tid f ts = .ok (l, some t')))
  | [], t, h => by simp at h
  | a :: as, t, h => by
    by_cases ha : a.id = tid
    · rw [List.find?_cons_of_pos _ (by simpa using ha)] at h
      cases h
      constructor
      · intro e he; simp [modify_first, ha, he]
      · intro t' ht'; exact ⟨t' :: as, by simp [modify_first, ha, ht']⟩
    · rw [List.find?_cons_of_neg _ (by simpa using ha)] at h
      obtain ⟨he, hok⟩ := modify_first_find tid f as t h
      constructor
      · intro e hfe; simp [modify_first, ha, he e hfe]
      · intro t' ht'
        obtain ⟨l, hl⟩ := hok t' ht'
        exact ⟨a :: l, by simp [modify_first, ha, hl]⟩

/-- `task_overdue` succeeds and agrees with `overdue_b` whenever the
task's schedule (if any) parses. -/
theorem task_overdue_ok (P : String → Option ODT) (local_offset : Int)
    (now_utc : ODT) (t : Task)
    (h : ∀ s, t.scheduled_at = some s → (P s).isSome = true) :
    task_overdue P t local_offset now_utc = .ok (overdue_b P local_offset now_utc t) := by
  cases hsch : t.scheduled_at with
  | none => simp [task_overdue, overdue_b, hsch]
  | some s =>
    obtain ⟨d, hd⟩ := Option.isSome_iff_exists.mp (h s hsch)
    simp [task_overdue, overdue_b, is_overdue, hsch, hd]

/-- Full characterization of the notification pass when every Pending
task's schedule parses: the selected tasks are exactly the qualifying
ones, delivered successes and per-task failures partition them, and no
delivery failure aborts the loop. -/
theorem notify_loop_spec (P : String → Option ODT)
    (N : Task → String → Except AppError Unit) (local_offset : Int) (now_utc : ODT) :
    ∀ tasks : List Task,
      (∀ t ∈ tasks, t.status = .Pending → ∀ s, t.scheduled_at = some s →
        (P s).isSome = true) →
      notify_loop P N local_offset now_utc tasks =
        .ok { tasks := (tasks.filter (qualifies P local_offset now_utc)).filter (delivered N)
              failures :=
                (tasks.filter (qualifies P local_offset now_utc)).filterMap (failure_of N) }
  | [], _ => rfl
  | task :: rest, h => by
    have hrest := notify_loop_spec P N local_offset now_utc rest
      (fun t ht => h t (List.mem_cons_of_mem _ ht))
    cases hstat : task.status with
    | Completed =>
      have hq : qualifies P local_offset now_utc task = false := by
        simp [qualifies, hstat]
      simp [notify_loop, hstat, hrest, List.filter_cons, hq]
    | Pending =>
      have hov := task_overdue_ok P local_offset now_utc task
        (h task (List.mem_cons_self _ _) hstat)
      rcases Bool.eq_false_or_eq_true (overdue_b P local_offset now_utc task) with hb | hb <;>
        rcases Bool.eq_false_or_eq_true task.urgent with hu | hu
      · have hq : qualifies P local_offset now_utc task = true := by
          simp [qualifies, hstat, hb]
        cases hn : N task (activation_argument task.id) with
        | ok u =>
          simp [notify_loop, hstat, hov, hb, hu, hrest, hn, List.filter_cons,
            List.filterMap_cons, hq, delivered, failure_of]
        | error err =>
          simp [notify_loop, hstat, hov, hb, hu, hrest, hn, List.filter_cons,
            List.filterMap_cons, hq, delivered, failure_of]
      · have hq : qualifies P local_offset now_utc task = true := by
          simp [qualifies, hstat, hb]
        cases hn : N task (activation_argument task.id) with
        | ok u =>
          simp [notify_loop, hstat, hov, hb, hu, hrest, hn, List.filter_cons,
            List.filterMap_cons, hq, delivered, failure_of]
        | error err =>
          simp [notify_loop, hstat, hov, hb, hu, hrest, hn, List.filter_cons,
            List.filterMap_cons, hq, delivered, failure_of]
      · have hq : qualifies P local_offset now_utc task = true := by
          simp [qualifies, hstat, hu]
        cases hn : N task (activation_argument task.id) with
        | ok u =>
          simp [notify_loop, hstat, hov, hb, hu, hrest, hn, List.filter_cons,
            List.filterMap_cons, hq, delivered, failure_of]
        | error err =>
          simp [notify_loop, hstat, hov, hb, hu, hrest, hn, List.filter_cons,
            List.filterMap_cons, hq, delivered, failure_of]
      · have hq : qualifies P local_offset now_utc task = false := by
          simp [qualifies, hstat, hb, hu]
        simp [notify_loop, hstat, hov, hb, hu, hrest, List.filter_cons, hq]

/-! ## Claim theorems -/

/-- C6 counterexample: the claim says `Store.load` "succeeds on any
document whose schema_version lies in [1, current]", but a document with
schema_version 1 (in range) and a `focused_task_id` naming no task is
rejected with `InvalidData`, so the claim as stated is false at this
input. -/
theorem C6_counterexample :
    (1 ≤ 1 ∧ 1 ≤ SCHEMA_VERSION) ∧
    load_state (some (.doc { schema_version := 1, tasks := [], focused_task_id := some "task-x" }))
      = .error (.InvalidData "focused_task_id not found") := by
  exact ⟨by decide, rfl⟩

/-- C6 (amended): `Store.load` returns the empty TaskState when no
document exists; succeeds on any document whose schema_version lies in
[1, current] *and* whose focused_task_id (if present) names an existing
task; and fails with `InvalidData` whenever the schema_version is
outside that range — in particular for current + 1. -/
theorem C6_load_schema_version :
    (load_state none = .ok { tasks := [], focused_task_id := none }) ∧
    (∀ d : StoredTasks, 1 ≤ d.schema_version → d.schema_version ≤ SCHEMA_VERSION →
      focus_ok { tasks := d.tasks, focused_task_id := d.focused_task_id } = true →
      load_state (some (.doc d)) =
        .ok { tasks := d.tasks, focused_task_id := d.focused_task_id }) ∧
    (∀ d : StoredTasks, ¬(1 ≤ d.schema_version ∧ d.schema_version ≤ SCHEMA_VERSION) →
      load_state (some (.doc d)) = .error (.InvalidData "schema_version mismatch")) ∧
    (load_state (some (.doc { schema_version := SCHEMA_VERSION + 1, tasks := [], focused_task_id := none }))
      = .error (.InvalidData "schema_version mismatch")) := by
  refine ⟨rfl, ?_, ?_, by decide⟩
  · intro d h1 h2 hfoc
    simp only [load_state]
    rw [if_neg (not_not_intro ⟨h1, h2⟩)]
    cases hf : d.focused_task_id with
    | none => simp [hf]
    | some f =>
      unfold focus_ok at hfoc
      rw [hf] at hfoc
      simp at hfoc
      simp [hf, hfoc]
  · intro d hv
    simp only [load_state]
    rw [if_pos hv]

/-- Witness for C6: a version-3 document with a valid focus loads, and a
version-(current+1) document is rejected. -/
theorem C6_witness :
    load_state (some (.doc { schema_version := 3, tasks := [taskNoon], focused_task_id := some "task-1" }))
      = .ok { tasks := [taskNoon], focused_task_id := some "task-1" } ∧
    load_state (some (.doc { schema_version := 6, tasks := [taskNoon], focused_task_id := none }))
      = .error (.InvalidData "schema_version mismatch") := by
  constructor
  · exact C6_load_schema_version.2.1
      { schema_version := 3, tasks := [taskNoon], focused_task_id := some "task-1" }
      (by decide) (by decide) (by decide)
  · exact C6_load_schema_version.2.2.1
      { schema_version := 6, tasks := [taskNoon], focused_task_id := none }
      (by decide)

/-- C7: for every TaskState satisfying the focus invariant, `save`
followed by `load` returns exactly the saved state, and the written
document carries the current schema version. -/
theorem C7_save_load_round_trip (s : TaskState) (h : focus_ok s = true) :
    save_state s = some (.doc { schema_version := SCHEMA_VERSION, tasks := s.tasks, focused_task_id := s.focused_task_id }) ∧
    load_state (save_state s) = .ok s := by
  refine ⟨rfl, ?_⟩
  obtain ⟨tasks, focused⟩ := s
  simp only [save_state, load_state]
  rw [if_neg (not_not_intro ⟨by decide, le_refl _⟩)]
  cases hf : focused with
  | none => simp [hf]
  | some f =>
    unfold focus_ok at h
    simp only [hf] at h
    simp [hf, h]

/-- Witness for C7 at a concrete focused state. -/
theorem C7_witness :
    load_state (save_state { tasks := [taskNoon], focused_task_id := some "task-1" })
      = .ok { tasks := [taskNoon], focused_task_id := some "task-1" } :=
  (C7_save_load_round_trip { tasks := [taskNoon], focused_task_id := some "task-1" }
    (by decide)).2

/-- C8: `IsOverdue` is pure: a task with no `scheduled_at` is never
overdue, and for a task whose schedule parses it is overdue exactly when
the offset-adjusted schedule instant is strictly before now in the same
offset. -/
theorem C8_is_overdue_pure (P : String → Option ODT) (t : Task)
    (local_offset : Int) (now_utc : ODT) :
    (t.scheduled_at = none → task_overdue P t local_offset now_utc = .ok false) ∧
    (∀ s d, t.scheduled_at = some s → P s = some d →
      task_overdue P t local_offset now_utc =
        .ok (ODT.lt (d.toOffset local_offset) (now_utc.toOffset local_offset))) := by
  constructor
  · intro h
    simp [task_overdue, h]
  · intro s d hs hp
    simp [task_overdue, is_overdue, hs, hp]

/-- Witness for C8: an unscheduled task is not overdue; a task scheduled
yesterday is; a task scheduled later today is not. -/
theorem C8_witness :
    task_overdue demoParse taskUnscheduled 0 nowMidnight = .ok false ∧
    task_overdue demoParse taskOverdueDemo 0 nowMidnight = .ok true ∧
    task_overdue demoParse taskNoon 0 nowMidnight = .ok false := by
  refine ⟨?_, ?_, ?_⟩
  · exact (C8_is_overdue_pure demoParse taskUnscheduled 0 nowMidnight).1 rfl
  · have h := (C8_is_overdue_pure demoParse taskOverdueDemo 0 nowMidnight).2
      "1969-12-31T00:00:00Z" { instant := -86400, offset := 0 } rfl (by decide)
    rw [h]
    decide
  · have h := (C8_is_overdue_pure demoParse taskNoon 0 nowMidnight).2
      "1970-01-01T12:00:00Z" { instant := 43200, offset := 0 } rfl (by decide)
    rw [h]
    decide

/-- C5: completing a task whose (first-matching) record is already
Completed fails with `InvalidInput "task already completed"` and leaves
the stored document untouched: the returned store content is exactly the
input content, so completion_history, completed_at and status are
unchanged. -/
theorem C5_complete_idempotent (st : Option Content) (s : TaskState)
    (id : String) (message : Option String) (now_str : String) (t : Task)
    (hload : load_state st = .ok s)
    (hid : (strTrim id).isEmpty = false)
    (hfind : s.tasks.find? (fun u => u.id = (strTrim id)) = some t)
    (hdone : t.status = .Completed) :
    complete_task_store st id message now_str =
      (st, .error (.InvalidInput "task already completed")) := by
  have hstep : complete_step message now_str t =
      .error (.InvalidInput "task already completed") := by
    simp [complete_step, hdone]
  have herr := (modify_first_find (strTrim id) (complete_step message now_str)
    s.tasks t hfind).1 _ hstep
  unfold complete_task_store
  rw [hload]
  unfold complete_task
  simp [hid, herr]

/-- Witness for C5: a second completion of the already-completed
`taskDone` fails and the stored document is returned unchanged. -/
theorem C5_witness :
    complete_task_store
        (some (.doc { schema_version := 5, tasks := [taskDone], focused_task_id := none }))
        "task-4" (some "again") "1970-01-02T00:00:00Z" =
      (some (.doc { schema_version := 5, tasks := [taskDone], focused_task_id := none }),
       .error (.InvalidInput "task already completed")) :=
  C5_complete_idempotent
    (some (.doc { schema_version := 5, tasks := [taskDone], focused_task_id := none }))
    { tasks := [taskDone], focused_task_id := none }
    "task-4" (some "again") "1970-01-02T00:00:00Z" taskDone
    (by decide) (by decide) (by decide) rfl

/-- C2: when every present schedule parses, the Today and Backlog
filters both succeed and partition the task list: a task is in exactly
one of the two results, each result only contains tasks of the list, and
an unscheduled task is in Backlog and never in Today. -/
theorem C2_today_backlog_partition (P : String → Option ODT) (tasks : List Task)
    (today local_offset : Int) (hall : parses_ok P tasks = true) :
    (filter_tasks P tasks today local_offset .Today =
      .ok (tasks.filter (scheduled_matches P local_offset today .Today))) ∧
    (filter_tasks P tasks today local_offset .Backlog =
      .ok (tasks.filter (scheduled_matches P local_offset today .Backlog))) ∧
    (∀ t ∈ tasks,
      (t ∈ tasks.filter (scheduled_matches P local_offset today .Today) ↔
       t ∉ tasks.filter (scheduled_matches P local_offset today .Backlog))) ∧
    (∀ t ∈ tasks.filter (scheduled_matches P local_offset today .Today), t ∈ tasks) ∧
    (∀ t ∈ tasks.filter (scheduled_matches P local_offset today .Backlog), t ∈ tasks) ∧
    (∀ t ∈ tasks, t.scheduled_at = none →
      t ∈ tasks.filter (scheduled_matches P local_offset today .Backlog) ∧
      t ∉ tasks.filter (scheduled_matches P local_offset today .Today)) := by
  have hcompl : ∀ t ∈ tasks,
      scheduled_matches P local_offset today .Backlog t =
        !scheduled_matches P local_offset today .Today t := by
    intro t ht
    cases hsch : t.scheduled_at with
    | none => simp [scheduled_matches, hsch]
    | some s =>
      have hmem := List.all_eq_true.mp hall t ht
      rw [hsch] at hmem
      obtain ⟨d, hd⟩ := Option.isSome_iff_exists.mp hmem
      by_cases hle : (d.toOffset local_offset).date ≤ today
      · simp [scheduled_matches, hsch, hd, hle, not_lt_of_ge hle]
      · simp [scheduled_matches, hsch, hd, hle, lt_of_not_ge hle]
  refine ⟨filter_tasks_of_parses P today local_offset .Today tasks hall,
          filter_tasks_of_parses P today local_offset .Backlog tasks hall,
          ?_, ?_, ?_, ?_⟩
  · intro t ht
    have hc := hcompl t ht
    simp [List.mem_filter, ht, hc]
  · intro t ht
    exact (List.mem_filter.mp ht).1
  · intro t ht
    exact (List.mem_filter.mp ht).1
  · intro t ht hsch
    constructor
    · exact List.mem_filter.mpr ⟨ht, by simp [scheduled_matches, hsch]⟩
    · intro hmem
      have := (List.mem_filter.mp hmem).2
      simp [scheduled_matches, hsch] at this

/-- Witness for C2 at a concrete three-task list (one due, one future,
one unscheduled). -/
theorem C2_witness :
    (filter_tasks demoParse [taskNoon, taskOverdueDemo, taskUnscheduled] (-1) 0 .Today =
      .ok ([taskNoon, taskOverdueDemo, taskUnscheduled].filter
        (scheduled_matches demoParse 0 (-1) .Today))) ∧
    (filter_tasks demoParse [taskNoon, taskOverdueDemo, taskUnscheduled] (-1) 0 .Backlog =
      .ok ([taskNoon, taskOverdueDemo, taskUnscheduled].filter
        (scheduled_matches demoParse 0 (-1) .Backlog))) :=
  ⟨(C2_today_backlog_partition demoParse [taskNoon, taskOverdueDemo, taskUnscheduled]
      (-1) 0 (by decide)).1,
   (C2_today_backlog_partition demoParse [taskNoon, taskOverdueDemo, taskUnscheduled]
      (-1) 0 (by decide)).2.1⟩

/-- Membership in a successful `list_with_focus` result is membership in
the state filtered by the per-task classification (focus promotion only
permutes). -/
theorem mem_list_with_focus (P : String → Option ODT) (s : TaskState)
    (now_utc : ODT) (local_offset : Int) (mode : ListMode) (r : ListResult)
    (t : Task) (hr : list_with_focus P s now_utc local_offset mode = .ok r) :
    t ∈ r.tasks ↔
      (t ∈ s.tasks ∧
       scheduled_matches P local_offset ((now_utc.toOffset local_offset).date)
         mode t = true) := by
  simp only [list_with_focus] at hr
  cases hft : filter_tasks P s.tasks ((now_utc.toOffset local_offset).date)
      local_offset mode with
  | error e =>
    rw [hft] at hr
    exact absurd hr (by simp)
  | ok tasks =>
    rw [hft] at hr
    simp only [Except.ok.injEq] at hr
    subst hr
    obtain ⟨-, hfilter⟩ :=
      (filter_tasks_ok_iff P _ local_offset mode s.tasks tasks).mp hft
    subst hfilter
    cases hfoc : s.focused_task_id with
    | none => simp [List.mem_filter]
    | some f => simp [mem_promote_focused, List.mem_filter]

/-- C1 counterexample: the claim places the today/backlog boundary at the
current local *instant*; but `taskNoon`, scheduled at 1970-01-01T12:00:00Z
— strictly after "now" (midnight that day) — is included by ListToday and
excluded by ListBacklog, because the code compares local calendar dates,
not instants. -/
theorem C1_counterexample :
    taskNoon.scheduled_at = some "1970-01-01T12:00:00Z" ∧
    demoParse "1970-01-01T12:00:00Z" = some { instant := 43200, offset := 0 } ∧
    ODT.lt (ODT.toOffset nowMidnight 0)
      (ODT.toOffset { instant := 43200, offset := 0 } 0) = true ∧
    list_with_focus demoParse { tasks := [taskNoon], focused_task_id := none }
      nowMidnight 0 .Today = .ok { tasks := [taskNoon], focused_task_id := none } ∧
    list_with_focus demoParse { tasks := [taskNoon], focused_task_id := none }
      nowMidnight 0 .Backlog = .ok { tasks := [], focused_task_id := none } :=
  ⟨rfl, by decide, by decide, by decide, by decide⟩

/-- C1 (amended): for a task whose `scheduled_at` parses, a successful
ListToday includes it exactly when the schedule's local calendar *date*
is at-or-before the local date of now, and a successful ListBacklog
includes it exactly when that date is strictly after today's — the
boundary is the current local day, not the current instant. -/
theorem C1_today_backlog_boundary (P : String → Option ODT) (s : TaskState)
    (now_utc : ODT) (local_offset : Int) (t : Task) (sd : String) (d : ODT)
    (ht : t ∈ s.tasks) (hs : t.scheduled_at = some sd) (hp : P sd = some d) :
    (∀ r, list_with_focus P s now_utc local_offset .Today = .ok r →
      (t ∈ r.tasks ↔
        (d.toOffset local_offset).date ≤ (now_utc.toOffset local_offset).date)) ∧
    (∀ r, list_with_focus P s now_utc local_offset .Backlog = .ok r →
      (t ∈ r.tasks ↔
        (now_utc.toOffset local_offset).date < (d.toOffset local_offset).date)) := by
  constructor
  · intro r hr
    rw [mem_list_with_focus P s now_utc local_offset .Today r t hr]
    simp [scheduled_matches, hs, hp, ht]
  · intro r hr
    rw [mem_list_with_focus P s now_utc local_offset .Backlog r t hr]
    simp [scheduled_matches, hs, hp, ht]

/-- Witness for C1: a task scheduled yesterday is in the Today view. -/
theorem C1_witness :
    taskOverdueDemo ∈
      ({ tasks := [taskOverdueDemo], focused_task_id := none } : ListResult).tasks := by
  have h := (C1_today_backlog_boundary demoParse
      { tasks := [taskOverdueDemo], focused_task_id := none } nowMidnight 0
      taskOverdueDemo "1969-12-31T00:00:00Z" { instant := -86400, offset := 0 }
      (by simp) rfl (by decide)).1
      { tasks := [taskOverdueDemo], focused_task_id := none } (by decide)
  exact h.mpr (by decide)

/-- C4: on an existing task id with a parseable datetime argument,
Reschedule checks its two extra preconditions in order — no current
schedule fails "task is not scheduled"; a current schedule that is not
strictly past fails "task is not overdue" — and when both hold the task
gets exactly the normalized re-serialization `F` of the parsed datetime. -/
theorem C4_reschedule_preconditions (P : String → Option ODT) (F : ODT → String)
    (s : TaskState) (id datetime : String) (local_offset : Int) (now_utc : ODT)
    (t : Task) (pd : ODT)
    (hid : (strTrim id).isEmpty = false)
    (hdt : (strTrim datetime).isEmpty = false)
    (hparse : P (strTrim datetime) = some pd)
    (hfind : s.tasks.find? (fun u => u.id = strTrim id) = some t) :
    (t.scheduled_at = none →
      reschedule_task P F s id datetime local_offset now_utc =
        .error (.InvalidInput "task is not scheduled")) ∧
    (∀ cur d, t.scheduled_at = some cur → P cur = some d →
      ODT.lt (d.toOffset local_offset) (now_utc.toOffset local_offset) = false →
      reschedule_task P F s id datetime local_offset now_utc =
        .error (.InvalidInput "task is not overdue")) ∧
    (∀ cur d, t.scheduled_at = some cur → P cur = some d →
      ODT.lt (d.toOffset local_offset) (now_utc.toOffset local_offset) = true →
      ∃ s', reschedule_task P F s id datetime local_offset now_utc =
        .ok (s', { t with scheduled_at := some (F pd) })) := by
  have hmf := modify_first_find (strTrim id)
    (update_schedule_step P (F pd) true true local_offset
      (now_utc.toOffset local_offset)) s.tasks t hfind
  refine ⟨?_, ?_, ?_⟩
  · intro hnone
    have hstep : update_schedule_step P (F pd) true true local_offset
        (now_utc.toOffset local_offset) t =
        .error (.InvalidInput "task is not scheduled") := by
      simp [update_schedule_step, hnone]
    have herr := hmf.1 _ hstep
    simp [reschedule_task, update_schedule, hid, hdt, hparse, herr]
  · intro cur d hcur hd hno
    have hstep : update_schedule_step P (F pd) true true local_offset
        (now_utc.toOffset local_offset) t =
        .error (.InvalidInput "task is not overdue") := by
      simp [update_schedule_step, hcur, is_overdue, hd, hno]
    have herr := hmf.1 _ hstep
    simp [reschedule_task, update_schedule, hid, hdt, hparse, herr]
  · intro cur d hcur hd hyes
    have hstep : update_schedule_step P (F pd) true true local_offset
        (now_utc.toOffset local_offset) t =
        .ok { t with scheduled_at := some (F pd) } := by
      simp [update_schedule_step, hcur, is_overdue, hd, hyes]
    obtain ⟨l, hl⟩ := hmf.2 _ hstep
    refine ⟨{ tasks := l, focused_task_id := s.focused_task_id }, ?_⟩
    simp [reschedule_task, update_schedule, hid, hdt, hparse, hl]

/-- Witness for C4: the three branches at concrete states — unscheduled
task, future-scheduled task, and overdue task rescheduled to tomorrow. -/
theorem C4_witness :
    reschedule_task demoParse demoFmt
      { tasks := [taskUnscheduled], focused_task_id := none }
      "task-3" "1970-01-02T00:00:00Z" 0 nowMidnight =
      .error (.InvalidInput "task is not scheduled") ∧
    reschedule_task demoParse demoFmt
      { tasks := [taskNoon], focused_task_id := none }
      "task-1" "1970-01-02T00:00:00Z" 0 nowMidnight =
      .error (.InvalidInput "task is not overdue") ∧
    (∃ s', reschedule_task demoParse demoFmt
      { tasks := [taskOverdueDemo], focused_task_id := none }
      "task-2" "1970-01-02T00:00:00Z" 0 nowMidnight =
      .ok (s', { taskOverdueDemo with
                 scheduled_at := some (demoFmt { instant := 86400, offset := 0 }) })) := by
  refine ⟨?_, ?_, ?_⟩
  · exact (C4_reschedule_preconditions demoParse demoFmt
      { tasks := [taskUnscheduled], focused_task_id := none }
      "task-3" "1970-01-02T00:00:00Z" 0 nowMidnight taskUnscheduled
      { instant := 86400, offset := 0 }
      (by decide) (by decide) (by decide) (by decide)).1 rfl
  · exact (C4_reschedule_preconditions demoParse demoFmt
      { tasks := [taskNoon], focused_task_id := none }
      "task-1" "1970-01-02T00:00:00Z" 0 nowMidnight taskNoon
      { instant := 86400, offset := 0 }
      (by decide) (by decide) (by decide) (by decide)).2.1
      "1970-01-01T12:00:00Z" { instant := 43200, offset := 0 } rfl (by decide) (by decide)
  · exact (C4_reschedule_preconditions demoParse demoFmt
      { tasks := [taskOverdueDemo], focused_task_id := none }
      "task-2" "1970-01-02T00:00:00Z" 0 nowMidnight taskOverdueDemo
      { instant := 86400, offset := 0 }
      (by decide) (by decide) (by decide) (by decide)).2.2
      "1969-12-31T00:00:00Z" { instant := -86400, offset := 0 } rfl (by decide) (by decide)

/-- C9: when every Pending task's schedule parses, the notification pass
returns exactly the Pending-and-(overdue-or-urgent) tasks, recording a
per-task failure for each failed delivery while still attempting and
reporting every other qualifying task; a Completed task never qualifies
regardless of its flags. -/
theorem C9_notification_selection (P : String → Option ODT)
    (N : Task → String → Except AppError Unit) (local_offset : Int)
    (now_utc : ODT) (s : TaskState)
    (hall : pending_parses_ok P s.tasks = true) :
    notify_overdue_or_urgent P N local_offset now_utc s =
      .ok { tasks :=
              (s.tasks.filter (qualifies P local_offset now_utc)).filter (delivered N)
            failures :=
              (s.tasks.filter (qualifies P local_offset now_utc)).filterMap
                (failure_of N) } ∧
    (∀ t, t.status = .Completed → qualifies P local_offset now_utc t = false) := by
  constructor
  · refine notify_loop_spec P N local_offset now_utc s.tasks ?_
    intro t ht hstat v hv
    have hmem := List.all_eq_true.mp hall t ht
    rw [hstat, hv] at hmem
    exact hmem
  · intro t ht
    simp [qualifies, ht]

/-- Witness for C9: a four-task state (overdue pending, urgent pending,
plain pending, completed urgent) with a notifier that fails on the
overdue task: the urgent task is delivered, the overdue task gets a
recorded failure, and the completed task is never selected. -/
theorem C9_witness :
    notify_overdue_or_urgent demoParse demoNotifier 0 nowMidnight
      { tasks := [taskOverdueDemo, taskUrgent, taskUnscheduled, taskDone]
        focused_task_id := none } =
      .ok { tasks := [taskUrgent]
            failures := [{ task_id := "task-2", error := .IoError "no display" }] } := by
  have h := (C9_notification_selection demoParse demoNotifier 0 nowMidnight
      { tasks := [taskOverdueDemo, taskUrgent, taskUnscheduled, taskDone]
        focused_task_id := none }
      (by decide)).1
  rw [h]
  decide

/-- `complete_step` never changes the task id. -/
theorem complete_step_id (message : Option String) (completed_at : String)
    (u u' : Task) (h : complete_step message completed_at u = .ok u') :
    u'.id = u.id := by
  unfold complete_step at h
  split at h
  · exact absurd h (by simp)
  · split at h
    · split at h
      · exact absurd h (by simp)
      · simp only [Except.ok.injEq] at h
        rw [← h]
    · simp only [Except.ok.injEq] at h
      rw [← h]

/-- `update_schedule_step` never changes the task id. -/
theorem update_schedule_step_id (P : String → Option ODT) (sa : String)
    (re ro : Bool) (off : Int) (nl : ODT) (u u' : Task)
    (h : update_schedule_step P sa re ro off nl u = .ok u') : u'.id = u.id := by
  unfold update_schedule_step at h
  split at h
  · exact absurd h (by simp)
  · split at h
    · split at h
      · exact absurd h (by simp)
      · split at h
        · exact absurd h (by simp)
        · split at h
          · exact absurd h (by simp)
          · simp only [Except.ok.injEq] at h
            rw [← h]
    · simp only [Except.ok.injEq] at h
      rw [← h]

/-- If the new task list keeps, for every id, whether some task carries
it, and the focus is either cleared or kept, the focus invariant
survives. -/
theorem focus_ok_preserved (s : TaskState) (tasks2 : List Task) (foc : Option String)
    (hany : ∀ g, tasks2.any (fun x => x.id = g) = s.tasks.any (fun x => x.id = g))
    (hfoc : foc = none ∨ foc = s.focused_task_id)
    (h : focus_ok s = true) :
    focus_ok { tasks := tasks2, focused_task_id := foc } = true := by
  rcases hfoc with rfl | rfl
  · rfl
  · cases hff : s.focused_task_id with
    | none => simp [focus_ok, hff]
    | some g =>
      unfold focus_ok at h
      rw [hff] at h
      simp only [focus_ok, hff]
      rw [hany g]
      exact h

/-- Removing the task carrying one id keeps every other id present. -/
theorem remove_first_any_ne (tasks rest : List Task) (r : Task) (tid g : String)
    (hm : remove_first tasks tid = some (rest, r)) (hg : g ≠ tid)
    (h : tasks.any (fun x => x.id = g) = true) :
    rest.any (fun x => x.id = g) = true := by
  obtain ⟨hid, hperm⟩ := remove_first_spec tid tasks rest r hm
  rw [List.any_eq_true] at h ⊢
  obtain ⟨x, hx, hxg⟩ := h
  rcases List.mem_cons.mp (hperm.mem_iff.mp hx) with rfl | hxr
  · exact absurd (by rw [← hid]; exact of_decide_eq_true hxg) hg.symm
  · exact ⟨x, hxr, hxg⟩

/-- C3: the focus invariant.  `Store.load` accepts only states whose
focus names an existing task and rejects a dangling focus with
`InvalidData` instead of repairing it; every successful mutating
operation preserves the invariant; and Delete, Edit and Complete clear
the focus when their target is the focused task (CompleteFocused always
clears it). -/
theorem C3_focus_invariant :
    (∀ (c : Option Content) (s : TaskState), load_state c = .ok s →
      focus_ok s = true) ∧
    (∀ (d : StoredTasks) (f : String), 1 ≤ d.schema_version →
      d.schema_version ≤ SCHEMA_VERSION → d.focused_task_id = some f →
      d.tasks.any (fun t => t.id = f) = false →
      load_state (some (.doc d)) =
        .error (.InvalidData "focused_task_id not found")) ∧
    (∀ s title urgent idv created s2 t, focus_ok s = true →
      add_task s title urgent idv created = .ok (s2, t) → focus_ok s2 = true) ∧
    (∀ s idv nt s2 t, focus_ok s = true → edit_task s idv nt = .ok (s2, t) →
      focus_ok s2 = true ∧
      (s.focused_task_id = some (strTrim idv) → s2.focused_task_id = none)) ∧
    (∀ s idv s2 t, focus_ok s = true → delete_task s idv = .ok (s2, t) →
      focus_ok s2 = true ∧
      (s.focused_task_id = some (strTrim idv) → s2.focused_task_id = none)) ∧
    (∀ s idv msg ca s2 t, focus_ok s = true →
      complete_task s idv msg ca = .ok (s2, t) →
      focus_ok s2 = true ∧
      (s.focused_task_id = some (strTrim idv) → s2.focused_task_id = none)) ∧
    (∀ s msg ca s2 t, complete_focused_task s msg ca = .ok (s2, t) →
      focus_ok s2 = true ∧ s2.focused_task_id = none) ∧
    (∀ s idv s2 t, set_focus s idv = .ok (s2, t) → focus_ok s2 = true) ∧
    (∀ s idv ub s2 t, focus_ok s = true → set_task_urgent s idv ub = .ok (s2, t) →
      focus_ok s2 = true) ∧
    (∀ P F s idv dt re ro off now s2 t, focus_ok s = true →
      update_schedule P F s idv dt re ro off now = .ok (s2, t) →
      focus_ok s2 = true) := by
  refine ⟨?_, ?_, ?_, ?_, ?_, ?_, ?_, ?_, ?_, ?_⟩
  · intro c s h
    match c with
    | none =>
      simp only [load_state, Except.ok.injEq] at h
      subst h
      rfl
    | some .garbage => exact absurd h (by simp [load_state])
    | some (.doc d) =>
      simp only [load_state] at h
      split at h
      · exact absurd h (by simp)
      · split at h
        next f hff =>
          split at h
          next hany =>
            simp only [Except.ok.injEq] at h
            subst h
            simpa [focus_ok] using hany
          next hnotany => exact absurd h (by simp)
        next hff =>
          simp only [Except.ok.injEq] at h
          subst h
          rfl
  · intro d f h1 h2 hf hnone
    simp only [load_state]
    rw [if_neg (not_not_intro ⟨h1, h2⟩), hf]
    simp [hnone]
  · intro s title urgent idv created s2 t hfocus hok
    by_cases h1 : (strTrim title).isEmpty = true
    · simp [add_task, h1] at hok
    · simp [add_task, h1] at hok
      obtain ⟨hs2, -⟩ := hok
      subst hs2
      cases hff : s.focused_task_id with
      | none => simp [focus_ok, hff]
      | some g =>
        unfold focus_ok at hfocus
        rw [hff] at hfocus
        simp at hfocus
        simp [focus_ok, hff, List.any_append]
        exact Or.inl hfocus
  · intro s idv nt s2 t hfocus hok
    by_cases h1 : (strTrim idv).isEmpty = true
    · simp [edit_task, h1] at hok
    · by_cases h2 : (strTrim nt).isEmpty = true
      · simp [edit_task, h1, h2] at hok
      · cases hm : modify_first (strTrim idv)
            (fun u => .ok { u with title := strTrim nt }) s.tasks with
        | error e => simp [edit_task, h1, h2, hm] at hok
        | ok p =>
          obtain ⟨l, u⟩ := p
          cases u with
          | none => simp [edit_task, h1, h2, hm] at hok
          | some upd =>
            simp [edit_task, h1, h2, hm] at hok
            obtain ⟨hs2, -⟩ := hok
            subst hs2
            have hany := modify_first_any_id (strTrim idv) _
              (fun u u' hu => by rw [← Except.ok.inj hu]) s.tasks l (some upd) hm
            constructor
            · refine focus_ok_preserved s l _ hany ?_ hfocus
              by_cases hc : s.focused_task_id = some (strTrim idv)
              · simp [hc]
              · simp [hc]
            · intro hfc
              simp [hfc]
  · intro s idv s2 t hfocus hok
    by_cases h1 : (strTrim idv).isEmpty = true
    · simp [delete_task, h1] at hok
    · cases hm : remove_first s.tasks (strTrim idv) with
      | none => simp [delete_task, h1, hm] at hok
      | some p =>
        obtain ⟨rest, r⟩ := p
        simp [delete_task, h1, hm] at hok
        obtain ⟨hs2, -⟩ := hok
        subst hs2
        constructor
        · by_cases hc : s.focused_task_id = some (strTrim idv)
          · simp [focus_ok, hc]
          · cases hff : s.focused_task_id with
            | none => simp [focus_ok, hc, hff]
            | some g =>
              have hg : g ≠ strTrim idv := by
                intro hgeq
                exact hc (by rw [hff, hgeq])
              unfold focus_ok at hfocus
              rw [hff] at hfocus
              have hrest := remove_first_any_ne s.tasks rest r (strTrim idv) g hm hg hfocus
              simp [focus_ok, hc, hff, hrest, hg]
        · intro hfc
          simp [hfc]
  · intro s idv msg ca s2 t hfocus hok
    by_cases h1 : (strTrim idv).isEmpty = true
    · simp [complete_task, h1] at hok
    · cases hm : modify_first (strTrim idv) (complete_step msg ca) s.tasks with
      | error e => simp [complete_task, h1, hm] at hok
      | ok p =>
        obtain ⟨l, u⟩ := p
        cases u with
        | none => simp [complete_task, h1, hm] at hok
        | some upd =>
          simp [complete_task, h1, hm] at hok
          obtain ⟨hs2, -⟩ := hok
          subst hs2
          have hany := modify_first_any_id (strTrim idv) _
            (fun u u' hu => complete_step_id msg ca u u' hu) s.tasks l (some upd) hm
          constructor
          · refine focus_ok_preserved s l _ hany ?_ hfocus
            by_cases hc : s.focused_task_id = some (strTrim idv)
            · simp [hc]
            · simp [hc]
          · intro hfc
            simp [hfc]
  · intro s msg ca s2 t hok
    cases hff : s.focused_task_id with
    | none => simp [complete_focused_task, hff] at hok
    | some fid =>
      cases msg with
      | some v =>
        by_cases h2 : (strTrim v).isEmpty = true
        · simp [complete_focused_task, hff, h2] at hok
        · cases hm : modify_first fid (complete_step (some v) ca) s.tasks with
          | error e => simp [complete_focused_task, hff, h2, hm] at hok
          | ok p =>
            obtain ⟨l, u⟩ := p
            cases u with
            | none => simp [complete_focused_task, hff, h2, hm] at hok
            | some upd =>
              simp [complete_focused_task, hff, h2, hm] at hok
              obtain ⟨hs2, -⟩ := hok
              subst hs2
              exact ⟨rfl, rfl⟩
      | none =>
        cases hm : modify_first fid (complete_step none ca) s.tasks with
        | error e => simp [complete_focused_task, hff, hm] at hok
        | ok p =>
          obtain ⟨l, u⟩ := p
          cases u with
          | none => simp [complete_focused_task, hff, hm] at hok
          | some upd =>
            simp [complete_focused_task, hff, hm] at hok
            obtain ⟨hs2, -⟩ := hok
            subst hs2
            exact ⟨rfl, rfl⟩
  · intro s idv s2 t hok
    by_cases h1 : (strTrim idv).isEmpty = true
    · simp [set_focus, h1] at hok
    · cases hf : s.tasks.find? (fun u => u.id = strTrim idv) with
      | none => simp [set_focus, h1, hf] at hok
      | some task =>
        simp [set_focus, h1, hf] at hok
        obtain ⟨hs2, -⟩ := hok
        subst hs2
        exact List.any_eq_true.mpr ⟨task, List.mem_of_find?_eq_some hf, by simp⟩
  · intro s idv ub s2 t hfocus hok
    by_cases h1 : (strTrim idv).isEmpty = true
    · simp [set_task_urgent, h1] at hok
    · cases hm : modify_first (strTrim idv)
          (fun u => .ok { u with urgent := ub }) s.tasks with
      | error e => simp [set_task_urgent, h1, hm] at hok
      | ok p =>
        obtain ⟨l, u⟩ := p
        cases u with
        | none => simp [set_task_urgent, h1, hm] at hok
        | some upd =>
          simp [set_task_urgent, h1, hm] at hok
          obtain ⟨hs2, -⟩ := hok
          subst hs2
          refine focus_ok_preserved s l _ ?_ (Or.inr rfl) hfocus
          exact modify_first_any_id (strTrim idv) _
            (fun u u' hu => by rw [← Except.ok.inj hu]) s.tasks l (some upd) hm
  · intro P F s idv dt re ro off now s2 t hfocus hok
    by_cases h1 : (strTrim idv).isEmpty = true
    · simp [update_schedule, h1] at hok
    · by_cases h2 : (strTrim dt).isEmpty = true
      · simp [update_schedule, h1, h2] at hok
      · cases hp : P (strTrim dt) with
        | none => simp [update_schedule, h1, h2, hp] at hok
        | some pd =>
          cases hm : modify_first (strTrim idv)
              (update_schedule_step P (F pd) re ro off (now.toOffset off)) s.tasks with
          | error e => simp [update_schedule, h1, h2, hp, hm] at hok
          | ok p =>
            obtain ⟨l, u⟩ := p
            cases u with
            | none => simp [update_schedule, h1, h2, hp, hm] at hok
            | some upd =>
              simp [update_schedule, h1, h2, hp, hm] at hok
              obtain ⟨hs2, -⟩ := hok
              subst hs2
              refine focus_ok_preserved s l _ ?_ (Or.inr rfl) hfocus
              exact modify_first_any_id (strTrim idv) _
                (fun u u' hu =>
                  update_schedule_step_id P (F pd) re ro off (now.toOffset off) u u' hu)
                s.tasks l (some upd) hm

/-- Witness for C3: deleting the focused task clears the focus and the
resulting concrete state keeps the invariant. -/
theorem C3_witness :
    focus_ok { tasks := [taskOverdueDemo], focused_task_id := none } = true ∧
    ({ tasks := [taskOverdueDemo], focused_task_id := none } : TaskState).focused_task_id
      = none := by
  have hd := C3_focus_invariant.2.2.2.2.1
    { tasks := [taskNoon, taskOverdueDemo], focused_task_id := some "task-1" }
    "task-1" { tasks := [taskOverdueDemo], focused_task_id := none } taskNoon
    (by decide) (by decide)
  exact ⟨hd.1, hd.2 (by decide)⟩

/-- C10 (the code evaluated at the failing input): by the `Task` struct
actually written in `model/task.rs` — which declares no `urgent` field —
serde deserialization of the task object from the crate's own test
`rejects_non_boolean_urgent_field` (`"urgent": "yes"`) succeeds and
yields a task that carries no urgent flag at all, and deserialization is
entirely independent of the `urgent` entry.  The crate's own tests
(`rejects_non_boolean_urgent_field`, `accepts_v1_schema_without_scheduled_at`,
`task_has_required_fields`) and every other source file require
`urgent: bool` with a `false` default, so the struct definition is the
slip, not the claim. -/
theorem C10_model_task_lacks_urgent :
    decodeModelTask
      { id := some (.str "task-1"), title := some (.str "demo")
        status := some (.str "pending")
        created_at := some (.str "2025-12-20T00:00:00Z")
        scheduled_at := none, completed_at := none, completion_history := none
        urgent := some (.str "yes") } =
      some { id := "task-1", title := "demo", status := .Pending
             created_at := "2025-12-20T00:00:00Z", scheduled_at := none
             completed_at := none, completion_history := [] } ∧
    (∀ (o : RawTaskObj) (v : Option JsonVal),
      decodeModelTask { o with urgent := v } = decodeModelTask o) :=
  ⟨rfl, fun _ _ => rfl⟩

end Todo
